import Mathlib

/-!
Shallow embedding of `src/hedgbot/app/static/app.js` (browser dashboard
controller for the Hedge-Bot trading panel), together with proofs about the
behaviour of its API client, form collection, rendering and bulk update
functions.

Modelling conventions:
* JS numbers are modelled as `ℚ` (no claim in scope depends on binary
  floating-point artefacts); `NaN` results of `parseFloat` are `Option.none`.
* A DOM `<input>.value` is modelled by `FieldVal`: `FieldVal.num q` is the
  string JS produces when the number `q` is assigned to `.value` (JS
  guarantees `parseFloat(String(q)) = q`, the string is non-empty and free of
  surrounding whitespace), and `FieldVal.str s` is any other string content.
* `fetch` responses are modelled by `HttpResponse`; `response.ok` is the
  WHATWG definition (status in 200..299). A body whose JSON parse fails is
  `jsonBody = none`.
* DOM subtrees that `renderInstrument` rewrites wholesale via `innerHTML`
  (order tables, log list) are modelled as lists of row view-models; the
  exact text formatting (`toFixed(2)`, `toLocaleString`) is abstracted: the
  view-model stores the value the formatted text is produced from.
* Event handlers become pure functions from the pre-event state (plus the
  server's reply, where one is awaited) to the post-event state.
-/

abbrev Q := ℚ

/-- Value of a DOM input: either the stringification of a JS number that was
assigned to `.value`, or a plain string (user-typed or empty). -/
inductive FieldVal where
  | num (q : Q)
  | str (s : String)
deriving DecidableEq

/-- JS digit test for `parseFloat` modelling. -/
def charIsDigit (c : Char) : Bool := '0' ≤ c && c ≤ '9'

/-- Split a character list into its leading run of digits and the rest. -/
def takeDigits : List Char → List Char × List Char
  | [] => ([], [])
  | c :: cs =>
    if charIsDigit c then
      let p := takeDigits cs
      (c :: p.1, p.2)
    else ([], c :: cs)

/-- Numeric value of a digit run. -/
def digitsToNat (ds : List Char) : Nat :=
  ds.foldl (fun n c => 10 * n + (c.toNat - '0'.toNat)) 0

/-- JS `parseFloat` on a character list: skip leading whitespace, optional
sign, digits with an optional fractional part; `none` is `NaN`. (Exponent
notation and `Infinity` are not modelled; no claim depends on them.) -/
def parseFloatCore (cs0 : List Char) : Option Q :=
  let cs1 := cs0.dropWhile (fun c => c = ' ' || c = '\t' || c = '\n' || c = '\r')
  let sp : Q × List Char :=
    match cs1 with
    | '-' :: rest => (-1, rest)
    | '+' :: rest => (1, rest)
    | _ => (1, cs1)
  let ip := takeDigits sp.2
  let fp : List Char :=
    match ip.2 with
    | '.' :: rest => (takeDigits rest).1
    | _ => []
  if ip.1.isEmpty && fp.isEmpty then none
  else some (sp.1 * ((digitsToNat ip.1 : Q) + (digitsToNat fp : Q) / (10 : Q) ^ fp.length))

/-- JS `parseFloat` applied to a raw string. -/
def parseFloatStr (s : String) : Option Q := parseFloatCore s.data

/-- JS `parseFloat` applied to an input's `.value`. On the stringification of
a number it recovers the number exactly (as JS `parseFloat(String(q))` does). -/
def parseFloatVal : FieldVal → Option Q
  | .num q => some q
  | .str s => parseFloatStr s

/-- Whitespace recognized by the modelled `trim` (JS trims a few more
exotic code points; no claim depends on them). -/
def isWhitespaceChar (c : Char) : Bool := c = ' ' || c = '\t' || c = '\n' || c = '\r'

/-- JS `String.prototype.trim`: drop leading and trailing whitespace. -/
def jsTrim (s : String) : String :=
  String.mk ((((s.data.dropWhile isWhitespaceChar).reverse).dropWhile isWhitespaceChar).reverse)

/-- JS `String.prototype.trim` on an input's `.value`; number
stringifications contain no surrounding whitespace. -/
def FieldVal.trim : FieldVal → FieldVal
  | .num q => .num q
  | .str s => .str (jsTrim s)

/-- JS truthiness of an input's `.value` as a string: only `""` is falsy;
a number's stringification is never empty. -/
def FieldVal.isTruthy : FieldVal → Bool
  | .num _ => true
  | .str s => s ≠ ""

/- ### Backend JSON shapes (data model of the spec) -/

/-- One take-profit level of an `InstrumentConfig`. -/
structure TakeProfit where
  label : String
  offset_percent : Q
  volume_percent : Q
deriving DecidableEq

/-- One stop-loss level of an `InstrumentConfig`. -/
structure StopLoss where
  offset_percent : Q
  volume_percent : Q
deriving DecidableEq

/-- The `tp1_dca` sub-object of an `InstrumentConfig`; `none` is JSON null. -/
structure TpDca where
  enabled : Bool
  offset_percent : Option Q
  quantity : Option Q
deriving DecidableEq

/-- Server-side instrument configuration as rendered into a card. -/
structure InstrumentConfig where
  entry_amount : Q
  take_profits : List TakeProfit
  stop_losses : List StopLoss
  tp1_dca : TpDca
deriving DecidableEq

/-- `positions` object; a missing side (`?? 0` in the source) is `none`. -/
structure Positions where
  LONG : Option Q
  SHORT : Option Q
deriving DecidableEq

/-- Row of the open-orders table payload. -/
structure OrderEntry where
  id : String
  type : String
  side : String
  quantity : Option Q
  status : String
deriving DecidableEq

/-- Row of the DCA-orders table payload. -/
structure DcaOrderEntry where
  id : String
  side : String
  quantity : Option Q
  status : String
deriving DecidableEq

/-- One log entry of an `InstrumentState`. -/
structure LogEntry where
  timestamp : String
  level : String
  message : String
deriving DecidableEq

/-- Full per-instrument state returned by the backend. -/
structure InstrumentState where
  symbol : String
  config : InstrumentConfig
  is_running : Bool
  positions : Positions
  open_orders : List OrderEntry
  dca_orders : List DcaOrderEntry
  logs : List LogEntry
deriving DecidableEq

/-- Aggregate state returned by start-all / stop-all. -/
structure ManagerState where
  instruments : List InstrumentState
deriving DecidableEq

/- ### API client (`API.request`, app.js lines 1-52) -/

/-- The part of a parsed JSON error body that `API.request` inspects:
its `detail` field (`none` when absent, mirroring `undefined`). -/
structure JsonBody where
  detail : Option String
deriving DecidableEq

/-- A settled `fetch` response: HTTP status, status text, and the JSON value
of the body (`none` when `response.json()` would reject). -/
structure HttpResponse where
  status : Nat
  statusText : String
  jsonBody : Option JsonBody
deriving DecidableEq

/-- WHATWG `Response.ok`: status in the inclusive range 200..299. -/
def responseOk (status : Nat) : Bool := 200 ≤ status && status ≤ 299

/-- Outcome of one `API.request` call: a fulfilled promise carrying the
parsed JSON (`none` for the 204 `null` result), a rejection with the `Error`
message built by the client, or the rejection of `response.json()` itself on
a 2xx non-204 response with an unparsable body. -/
inductive RequestOutcome where
  | ok (value : Option JsonBody)
  | error (message : String)
  | jsonError
deriving DecidableEq

/-- `API.request` (app.js lines 2-16): on a non-ok response, parse the body
(falling back to an empty object), build the message by the JS falsy-chain
`detail.detail || response.statusText || "Ошибка запроса"` and throw; on 204
return null; otherwise return the parsed body. -/
def API.request (resp : HttpResponse) : RequestOutcome :=
  if !(responseOk resp.status) then
    let detail : JsonBody := resp.jsonBody.getD ⟨none⟩
    let message : String :=
      match detail.detail with
      | some d =>
        if d = "" then (if resp.statusText = "" then "Ошибка запроса" else resp.statusText)
        else d
      | none => if resp.statusText = "" then "Ошибка запроса" else resp.statusText
    .error message
  else if resp.status = 204 then .ok none
  else
    match resp.jsonBody with
    | some body => .ok (some body)
    | none => .jsonError

/- ### Card DOM model -/

/-- DOM state of one `.tp-row`: its `data-label` and two number inputs. -/
structure TpRowDom where
  label : String
  offsetVal : FieldVal
  volumeVal : FieldVal
deriving DecidableEq

/-- DOM state of one `.stop-loss-row`: its two number inputs. -/
structure SlRowDom where
  offsetVal : FieldVal
  volumeVal : FieldVal
deriving DecidableEq

/-- Rendered row of the open-orders table (`toFixed(2)` formatting of the
quantity is abstracted: the field stores `Number(order.quantity ?? 0)`). -/
structure OrderRowView where
  id : String
  type : String
  side : String
  quantity : Q
  status : String
deriving DecidableEq

/-- Rendered row of the DCA-orders table. -/
structure DcaOrderRowView where
  id : String
  side : String
  quantity : Q
  status : String
deriving DecidableEq

/-- Rendered `<li>` of the log list (date/level formatting abstracted:
the fields store the values the formatted text is produced from). -/
structure LogItemView where
  timestamp : String
  level : String
  message : String
deriving DecidableEq

/-- DOM state of one `.instrument-card`, restricted to everything the code
under test reads or writes. Optional subtrees (`.open-orders tbody`,
`.dca-table tbody`, `.log-list ul`) are `none` when absent from the card, in
which case `renderInstrument` skips them. `longPosition`/`shortPosition`
store the number whose `toFixed(2)` rendering is displayed. -/
structure CardDom where
  symbol : String
  entryAmountVal : FieldVal
  tpRows : List TpRowDom
  slRows : List SlRowDom
  dcaEnabledChecked : Bool
  dcaOffsetVal : FieldVal
  dcaQuantityVal : FieldVal
  statusRunning : String
  statusIndicatorText : String
  statusText : String
  longPosition : Q
  shortPosition : Q
  openOrdersView : Option (List OrderRowView)
  dcaOrdersView : Option (List DcaOrderRowView)
  logItems : Option (List LogItemView)
deriving DecidableEq

/- ### Stop-loss rows (app.js lines 71-103, 231-237) -/

/-- `createStopLossRow(offset, volume)` (app.js lines 71-89): a fresh row
whose two inputs carry the interpolated values. -/
def createStopLossRow (offset volume : FieldVal) : SlRowDom :=
  ⟨offset, volume⟩

/-- `collectStopLosses(container)` (app.js lines 91-96): map every
`.stop-loss-row` to its parsed offset/volume pair. -/
def collectStopLosses (rows : List SlRowDom) : List (Option Q × Option Q) :=
  rows.map (fun row => (parseFloatVal row.offsetVal, parseFloatVal row.volumeVal))

/-- `renderStopLosses(container, stopLosses)` (app.js lines 98-103): clear
the container and append one fresh row per entry, with number values. -/
def renderStopLosses (stopLosses : List StopLoss) : List SlRowDom :=
  stopLosses.map (fun sl =>
    createStopLossRow (FieldVal.num sl.offset_percent) (FieldVal.num sl.volume_percent))

/-- Click handler of the `.add-stop` button (app.js lines 231-237): refuse
with an alert when the container already holds 10 children, otherwise append
one fresh empty row. Returns the new row list and whether the alert fired. -/
def addStopClick (rows : List SlRowDom) : List SlRowDom × Bool :=
  if rows.length ≥ 10 then (rows, true)
  else (rows ++ [createStopLossRow (FieldVal.str "") (FieldVal.str "")], false)

/- ### Config collection (app.js lines 105-140) -/

/-- Take-profit object built by `collectConfig`; `none` fields are NaN
results of `parseFloat`. -/
structure CollectedTakeProfit where
  label : String
  offset_percent : Option Q
  volume_percent : Option Q
deriving DecidableEq

/-- `tp1_dca` object built by `collectConfig`; a `none` is either JSON null
(blank field) or NaN. -/
structure CollectedDca where
  enabled : Bool
  offset_percent : Option Q
  quantity : Option Q
deriving DecidableEq

/-- The `InstrumentConfig` payload that `collectConfig` builds and
`API.updateConfig` posts. -/
structure CollectedConfig where
  symbol : String
  entry_amount : Option Q
  take_profits : List CollectedTakeProfit
  stop_losses : List (Option Q × Option Q)
  tp1_dca : CollectedDca
deriving DecidableEq

/-- Error message thrown by `collectConfig` when DCA is enabled but a
required field is blank (app.js line 124). -/
def dcaValidationMessage : String :=
  "Для включенной доливки необходимо указать отступ и объём"

/-- `collectConfig(card)` (app.js lines 105-140): read every form field into
a `CollectedConfig`; throw `dcaValidationMessage` when the DCA checkbox is
checked but the trimmed offset or quantity value is falsy. -/
def collectConfig (card : CardDom) : Except String CollectedConfig :=
  let entryAmount := parseFloatVal card.entryAmountVal
  let takeProfits : List CollectedTakeProfit := card.tpRows.map (fun row =>
    ⟨row.label, parseFloatVal row.offsetVal, parseFloatVal row.volumeVal⟩)
  let stopLosses := collectStopLosses card.slRows
  let dcaEnabled := card.dcaEnabledChecked
  let dcaOffsetValue := card.dcaOffsetVal.trim
  let dcaQuantityValue := card.dcaQuantityVal.trim
  if dcaEnabled && (!dcaOffsetValue.isTruthy || !dcaQuantityValue.isTruthy) then
    .error dcaValidationMessage
  else
    .ok
      { symbol := card.symbol
        entry_amount := entryAmount
        take_profits := takeProfits
        stop_losses := stopLosses
        tp1_dca :=
          { enabled := dcaEnabled
            offset_percent :=
              if dcaOffsetValue.isTruthy then parseFloatVal dcaOffsetValue else none
            quantity :=
              if dcaQuantityValue.isTruthy then parseFloatVal dcaQuantityValue else none } }

/- ### Rendering (app.js lines 142-224) -/

/-- Result of `renderInstrument`: `ok` with the final card DOM, or `thrown`
with the card DOM as it stood when the `TypeError` (reading a property of an
undefined take-profit entry) escaped. -/
inductive RenderResult where
  | ok (card : CardDom)
  | thrown (card : CardDom)
deriving DecidableEq

/-- Write one take-profit entry into one `.tp-row` (app.js lines 149-150). -/
def writeTpRow (row : TpRowDom) (tp : TakeProfit) : TpRowDom :=
  { row with offsetVal := FieldVal.num tp.offset_percent
             volumeVal := FieldVal.num tp.volume_percent }

/-- The `tpRows.forEach((row, index) => ...)` loop of `renderInstrument`
(app.js lines 146-151): rows are written in order with
`take_profits[index]`; when the index runs past the entries the access
`tp.offset_percent` throws, leaving that row and all later rows untouched.
Returns the row list after the loop and whether it threw. -/
def writeTpRows : List TpRowDom → List TakeProfit → List TpRowDom × Bool
  | [], _ => ([], false)
  | r :: rs, [] => (r :: rs, true)
  | r :: rs, tp :: tps =>
    let p := writeTpRows rs tps
    (writeTpRow r tp :: p.1, p.2)

/-- JS evaluation of `data.logs.slice().reverse()` (app.js lines 210-212)
with the copy made explicit: `slice()` copies the array, `reverse()` then
mutates only that copy. The first component is the content of the original
`logs` array after evaluation, the second the displayed sequence. -/
def logsSliceReverse (logs : List LogEntry) : List LogEntry × List LogEntry :=
  let copy := logs
  (logs, copy.reverse)

/-- View-model of one rendered log `<li>` (app.js lines 214-220). -/
def logItemView (entry : LogEntry) : LogItemView :=
  ⟨entry.timestamp, entry.level, entry.message⟩

/-- View-model of one rendered open-orders `<tr>` (app.js lines 179-187). -/
def orderRowView (order : OrderEntry) : OrderRowView :=
  ⟨order.id, order.type, order.side, order.quantity.getD 0, order.status⟩

/-- View-model of one rendered DCA-orders `<tr>` (app.js lines 196-202). -/
def dcaOrderRowView (order : DcaOrderEntry) : DcaOrderRowView :=
  ⟨order.id, order.side, order.quantity.getD 0, order.status⟩

/-- `renderInstrument(card, data)` (app.js lines 142-224), with the source's
write order preserved: entry amount, take-profit rows (the only step that
can throw), stop-loss rows, DCA fields, status indicator and text, position
numbers, then the three optional `innerHTML` subtrees. -/
def renderInstrument (card : CardDom) (data : InstrumentState) : RenderResult :=
  let card1 := { card with entryAmountVal := FieldVal.num data.config.entry_amount }
  let wt := writeTpRows card1.tpRows data.config.take_profits
  let card2 := { card1 with tpRows := wt.1 }
  if wt.2 then RenderResult.thrown card2
  else
    let card3 := { card2 with slRows := renderStopLosses data.config.stop_losses }
    let card4 := { card3 with
      dcaEnabledChecked := data.config.tp1_dca.enabled
      dcaOffsetVal :=
        match data.config.tp1_dca.offset_percent with
        | some q => FieldVal.num q
        | none => FieldVal.str ""
      dcaQuantityVal :=
        match data.config.tp1_dca.quantity with
        | some q => FieldVal.num q
        | none => FieldVal.str "" }
    let card5 := { card4 with
      statusRunning := if data.is_running then "true" else "false"
      statusIndicatorText := if data.is_running then "Работает" else "Остановлен"
      statusText := if data.is_running then "Работает" else "Остановлен" }
    let card6 := { card5 with
      longPosition := data.positions.LONG.getD 0
      shortPosition := data.positions.SHORT.getD 0 }
    let card7 := { card6 with
      openOrdersView := card6.openOrdersView.map
        (fun _ => data.open_orders.map orderRowView)
      dcaOrdersView := card6.dcaOrdersView.map
        (fun _ => data.dca_orders.map dcaOrderRowView)
      logItems := card6.logItems.map
        (fun _ => (logsSliceReverse data.logs).2.map logItemView) }
    RenderResult.ok card7

/-- The card DOM held inside either `RenderResult` constructor. -/
def renderResultCard : RenderResult → CardDom
  | .ok card => card
  | .thrown card => card

/- ### Config form submit handler (app.js lines 239-250) -/

/-- Behaviour of the awaited `API.updateConfig` call for one submission:
the promise resolves with an `InstrumentState` or rejects with a message. -/
inductive ServerReply where
  | resolved (state : InstrumentState)
  | rejected (message : String)
deriving DecidableEq

/-- Message of the `TypeError` raised when `renderInstrument` reads a
property of an undefined take-profit entry (exact browser wording varies;
no claim depends on it). -/
def typeErrorMessage : String := "TypeError: cannot read property of undefined"

/-- Observable outcome of one submit-handler run: the card DOM afterwards,
the message passed to `alert`, the payload posted via `API.updateConfig`
(`none` when the call was never made), and whether `renderInstrument` ran. -/
structure SubmitResult where
  card : CardDom
  alertMsg : String
  payload : Option CollectedConfig
  rendered : Bool
deriving DecidableEq

/-- The form submit handler (app.js lines 239-250): collect the config
(aborting to `alert(error.message)` on a validation throw), post it, render
the reply and alert success, or alert the rejection message. The whole body
is inside one try/catch, so a throwing render is also caught. -/
def submitHandler (card : CardDom) (reply : ServerReply) : SubmitResult :=
  match collectConfig card with
  | .error e => ⟨card, e, none, false⟩
  | .ok config =>
    match reply with
    | .rejected m => ⟨card, m, some config, false⟩
    | .resolved data =>
      match renderInstrument card data with
      | .ok card2 => ⟨card2, "Настройки обновлены", some config, true⟩
      | .thrown card2 => ⟨card2, typeErrorMessage, some config, true⟩

/- ### Stop-loss interaction sequences (for the submission invariant) -/

/-- One interaction that can touch a card's stop-loss container before a
submit: the `.add-stop` click, a row's own remove control, or a re-render
from a server payload. -/
inductive SlAction where
  | add
  | remove (i : Nat)
  | render (stopLosses : List StopLoss)

/-- Effect of one interaction on the container's row list. -/
def applySlAction (rows : List SlRowDom) : SlAction → List SlRowDom
  | .add => (addStopClick rows).1
  | .remove i => rows.eraseIdx i
  | .render sls => renderStopLosses sls

/-- Effect of an interaction sequence, applied left to right. -/
def applySlActions (acts : List SlAction) (rows : List SlRowDom) : List SlRowDom :=
  acts.foldl applySlAction rows

/- ### Bulk update (app.js lines 304-334) -/

/-- Index of the first rendered card whose `data-symbol` matches, as
`document.querySelector` finds it. -/
def findCardIdx (cards : List CardDom) (sym : String) : Option Nat :=
  match cards with
  | [] => none
  | c :: rest =>
    if c.symbol = sym then some 0
    else (findCardIdx rest sym).map (fun i => i + 1)

/-- The `managerState.instruments.forEach` loop of `updateAll` (app.js lines
328-333) over a page of rendered cards: for each instrument, re-render the
first card with its symbol (if any). A render that throws escapes the
`forEach` immediately, leaving later instruments unprocessed; the second
component records whether that happened. -/
def updateAllGo : List InstrumentState → List CardDom → List CardDom × Bool
  | [], cards => (cards, false)
  | inst :: rest, cards =>
    match findCardIdx cards inst.symbol with
    | none => updateAllGo rest cards
    | some i =>
      match cards[i]? with
      | some c =>
        match renderInstrument c inst with
        | .ok c2 => updateAllGo rest (cards.set i c2)
        | .thrown c2 => (cards.set i c2, true)
      | none => (cards, false)

/-- `updateAll(managerState)` (app.js lines 327-334). -/
def updateAll (state : ManagerState) (cards : List CardDom) : List CardDom × Bool :=
  updateAllGo state.instruments cards

/-- Spec-side reformulation of the fan-out: a single card is re-rendered
once by every instrument whose symbol matches it, in list order, and left
alone by the rest. -/
def applyMatching (insts : List InstrumentState) (c : CardDom) : CardDom :=
  insts.foldl
    (fun c inst =>
      if c.symbol = inst.symbol then renderResultCard (renderInstrument c inst) else c)
    c

/- ### Derived characterizations and projections used by the theorems -/

/-- The card produced by a completed (non-throwing) `renderInstrument` run,
written as one record: every take-profit row is overwritten pairwise with
the entries (extra rows would have thrown; extra entries are dropped by the
`zipWith`), the stop-loss container is rebuilt, and all remaining fields are
taken from the payload. Proved equal to `renderInstrument` below. -/
def renderedCard (card : CardDom) (data : InstrumentState) : CardDom :=
  { symbol := card.symbol
    entryAmountVal := FieldVal.num data.config.entry_amount
    tpRows := List.zipWith writeTpRow card.tpRows data.config.take_profits
        ++ card.tpRows.drop data.config.take_profits.length
    slRows := renderStopLosses data.config.stop_losses
    dcaEnabledChecked := data.config.tp1_dca.enabled
    dcaOffsetVal :=
      match data.config.tp1_dca.offset_percent with
      | some q => FieldVal.num q
      | none => FieldVal.str ""
    dcaQuantityVal :=
      match data.config.tp1_dca.quantity with
      | some q => FieldVal.num q
      | none => FieldVal.str ""
    statusRunning := if data.is_running then "true" else "false"
    statusIndicatorText := if data.is_running then "Работает" else "Остановлен"
    statusText := if data.is_running then "Работает" else "Остановлен"
    longPosition := data.positions.LONG.getD 0
    shortPosition := data.positions.SHORT.getD 0
    openOrdersView := card.openOrdersView.map (fun _ => data.open_orders.map orderRowView)
    dcaOrdersView := card.dcaOrdersView.map (fun _ => data.dca_orders.map dcaOrderRowView)
    logItems := card.logItems.map
      (fun _ => (logsSliceReverse data.logs).2.map logItemView) }

/-- The payload with its `take_profits` truncated to the card's row count:
rendering ignores entries beyond the rows that exist. -/
def truncTakeProfits (card : CardDom) (S : InstrumentState) : InstrumentState :=
  { S with config :=
      { S.config with take_profits := S.config.take_profits.take card.tpRows.length } }

/-- A `renderInstrument` run that throws mid-way: the entry amount is
already overwritten, the take-profit rows are overwritten pairwise as far
as the entries reach (the rest untouched), and every later write — stop
losses, DCA fields, status, positions, tables, logs — never happened. -/
def thrownPartially (card : CardDom) (S : InstrumentState) : Prop :=
  ∃ card2, renderInstrument card S = RenderResult.thrown card2 ∧
    card2.entryAmountVal = FieldVal.num S.config.entry_amount ∧
    card2.tpRows = List.zipWith writeTpRow card.tpRows S.config.take_profits
        ++ card.tpRows.drop S.config.take_profits.length ∧
    card2.slRows = card.slRows ∧
    card2.dcaEnabledChecked = card.dcaEnabledChecked ∧
    card2.dcaOffsetVal = card.dcaOffsetVal ∧
    card2.dcaQuantityVal = card.dcaQuantityVal ∧
    card2.statusRunning = card.statusRunning ∧
    card2.statusIndicatorText = card.statusIndicatorText ∧
    card2.statusText = card.statusText ∧
    card2.longPosition = card.longPosition ∧
    card2.shortPosition = card.shortPosition ∧
    card2.openOrdersView = card.openOrdersView ∧
    card2.dcaOrdersView = card.dcaOrdersView ∧
    card2.logItems = card.logItems

/-- Offset/volume pairs of a collected config's take-profit list. -/
def editableTpPairs (cfg : CollectedConfig) : List (Option Q × Option Q) :=
  cfg.take_profits.map (fun t => (t.offset_percent, t.volume_percent))

/-- Offset/volume pairs of a server config's take-profit list, as
`collectConfig` would report them after a faithful render. -/
def configTpPairs (cfg : InstrumentConfig) : List (Option Q × Option Q) :=
  cfg.take_profits.map (fun t => (some t.offset_percent, some t.volume_percent))

/-- Offset/volume pairs of a server config's stop-loss list, as
`collectConfig` would report them after a faithful render. -/
def configSlPairs (cfg : InstrumentConfig) : List (Option Q × Option Q) :=
  cfg.stop_losses.map (fun sl => (some sl.offset_percent, some sl.volume_percent))

/-- The spec's well-formedness condition on `tp1_dca`: when DCA is enabled,
both the offset and the quantity are present. -/
def dcaWellFormed (d : TpDca) : Prop :=
  d.enabled = true → d.offset_percent.isSome ∧ d.quantity.isSome

/-- Iterate the `.add-stop` click `n` times. -/
def addStopTimes : Nat → List SlRowDom → List SlRowDom
  | 0, rows => rows
  | n + 1, rows => addStopTimes n (addStopClick rows).1

/-- Length of the `stop_losses` list in the payload a submit posted
(`none` when no request went out). -/
def payloadSlCount (card : CardDom) (reply : ServerReply) : Option Nat :=
  (submitHandler card reply).payload.map (fun cfg => cfg.stop_losses.length)

/-- The editable-config subset recovered by render-then-collect: entry
amount, take-profit offset/volume pairs, stop-loss pairs and the DCA block;
`none` when the render throws or the collection throws. -/
def roundTripEditable (card : CardDom) (S : InstrumentState) :
    Option (Option Q × List (Option Q × Option Q) × List (Option Q × Option Q) × CollectedDca) :=
  match renderInstrument card S with
  | .ok card2 =>
    match collectConfig card2 with
    | .ok cfg => some (cfg.entry_amount, editableTpPairs cfg, cfg.stop_losses, cfg.tp1_dca)
    | .error _ => none
  | .thrown _ => none

/- ### Concrete inputs used by witnesses and counterexamples -/

/-- A plain card for the symbol BTCUSDT: no take-profit rows, no stop-loss
rows, DCA off, empty optional subtrees present. -/
def baseCard : CardDom :=
  { symbol := "BTCUSDT"
    entryAmountVal := FieldVal.str ""
    tpRows := []
    slRows := []
    dcaEnabledChecked := false
    dcaOffsetVal := FieldVal.str ""
    dcaQuantityVal := FieldVal.str ""
    statusRunning := "false"
    statusIndicatorText := "Остановлен"
    statusText := "Остановлен"
    longPosition := 0
    shortPosition := 0
    openOrdersView := some []
    dcaOrdersView := some []
    logItems := some [] }

/-- A second card for a different symbol. -/
def otherCard : CardDom := { baseCard with symbol := "ETHUSDT" }

/-- A sample backend state for BTCUSDT with one take-profit level, one
stop-loss level, DCA off, and two log entries. -/
def sampleState : InstrumentState :=
  { symbol := "BTCUSDT"
    config :=
      { entry_amount := 100
        take_profits := [⟨"TP1", 1, 50⟩]
        stop_losses := [⟨2, 25⟩]
        tp1_dca := ⟨false, none, none⟩ }
    is_running := true
    positions := ⟨some 1, some 2⟩
    open_orders := []
    dca_orders := []
    logs := [⟨"2024-01-01", "INFO", "first"⟩, ⟨"2024-01-02", "ERROR", "second"⟩] }

/-- Card whose stop-loss container was filled by rendering a server payload
carrying eleven stop losses. -/
def c1Card : CardDom :=
  { baseCard with slRows := applySlActions [SlAction.render (List.replicate 11 ⟨0, 0⟩)] [] }

/-- Card with the DCA checkbox checked and both DCA fields blank. -/
def c3Card : CardDom := { baseCard with dcaEnabledChecked := true }

/-- Card with one take-profit row. -/
def oneTpRowCard : CardDom :=
  { baseCard with tpRows := [⟨"TP1", FieldVal.str "", FieldVal.str ""⟩] }

/-- Sample state with no take-profit entries (renders of `oneTpRowCard`
with it throw). -/
def emptyTpState : InstrumentState :=
  { sampleState with config := { sampleState.config with take_profits := [] } }

/-- The card produced by rendering `baseCard` with `sampleState`. -/
def c8Rendered : CardDom := renderResultCard (renderInstrument baseCard sampleState)

/- ### Helper lemmas -/

/-- Closed form of the take-profit row loop: rows are overwritten pairwise
with the entries, rows past the entries stay, and the loop throws exactly
when rows outnumber entries. -/
theorem writeTpRows_eq (rows : List TpRowDom) (tps : List TakeProfit) :
    writeTpRows rows tps =
      (List.zipWith writeTpRow rows tps ++ rows.drop tps.length,
        decide (tps.length < rows.length)) := by
  induction rows generalizing tps with
  | nil => cases tps <;> simp [writeTpRows]
  | cons r rs ih =>
    cases tps with
    | nil => simp [writeTpRows]
    | cons tp tps' => simp [writeTpRows, ih, Nat.succ_lt_succ_iff]

/-- Truncating the entries to the row count does not change the loop. -/
theorem writeTpRows_take (rows : List TpRowDom) (tps : List TakeProfit) :
    writeTpRows rows (tps.take rows.length) = writeTpRows rows tps := by
  induction rows generalizing tps with
  | nil => cases tps <;> rfl
  | cons r rs ih =>
    cases tps with
    | nil => rfl
    | cons tp tps' => simp [writeTpRows, ih]

/-- The row loop preserves the number of rows. -/
theorem writeTpRows_length (rows : List TpRowDom) (tps : List TakeProfit) :
    (writeTpRows rows tps).1.length = rows.length := by
  rw [writeTpRows_eq]
  simp
  omega

/-- A render whose card has at most as many rows as the payload has entries
completes, producing `renderedCard`. -/
theorem renderInstrument_eq_ok (card : CardDom) (data : InstrumentState)
    (h : card.tpRows.length ≤ data.config.take_profits.length) :
    renderInstrument card data = RenderResult.ok (renderedCard card data) := by
  have hlt : ¬ data.config.take_profits.length < card.tpRows.length := Nat.not_lt.mpr h
  simp [renderInstrument, writeTpRows_eq, hlt, renderedCard]

/-- A render whose card has more rows than the payload has entries throws,
with the partially mutated card as stated by `writeTpRows_eq`. -/
theorem renderInstrument_eq_thrown (card : CardDom) (data : InstrumentState)
    (h : data.config.take_profits.length < card.tpRows.length) :
    renderInstrument card data = RenderResult.thrown
      { card with
        entryAmountVal := FieldVal.num data.config.entry_amount
        tpRows := List.zipWith writeTpRow card.tpRows data.config.take_profits
            ++ card.tpRows.drop data.config.take_profits.length } := by
  simp [renderInstrument, writeTpRows_eq, h]

/-- A successful render determines the card: it is `renderedCard`, and the
card could not have had more rows than the payload had entries. -/
theorem renderInstrument_ok_elim (card : CardDom) (data : InstrumentState)
    (card2 : CardDom) (h : renderInstrument card data = RenderResult.ok card2) :
    card2 = renderedCard card data ∧
      card.tpRows.length ≤ data.config.take_profits.length := by
  by_cases hlt : data.config.take_profits.length < card.tpRows.length
  · rw [renderInstrument_eq_thrown card data hlt] at h
    exact absurd h (by simp)
  · have hle := Nat.not_lt.mp hlt
    rw [renderInstrument_eq_ok card data hle] at h
    exact ⟨(RenderResult.ok.injEq _ _).mp h.symm, hle⟩

/-- Rendering never changes the card's `data-symbol`. -/
theorem renderResultCard_symbol (card : CardDom) (data : InstrumentState) :
    (renderResultCard (renderInstrument card data)).symbol = card.symbol := by
  by_cases hlt : data.config.take_profits.length < card.tpRows.length
  · rw [renderInstrument_eq_thrown card data hlt]; rfl
  · rw [renderInstrument_eq_ok card data (Nat.not_lt.mp hlt)]; rfl

/-- Rendering never changes the number of take-profit rows. -/
theorem renderResultCard_tpRows_length (card : CardDom) (data : InstrumentState) :
    (renderResultCard (renderInstrument card data)).tpRows.length = card.tpRows.length := by
  by_cases hlt : data.config.take_profits.length < card.tpRows.length
  · rw [renderInstrument_eq_thrown card data hlt]
    simp [renderResultCard]
    omega
  · rw [renderInstrument_eq_ok card data (Nat.not_lt.mp hlt)]
    simp [renderResultCard, renderedCard]
    omega

/-- Collecting a freshly rendered stop-loss container recovers every
offset/volume pair. -/
theorem collect_render_stopLosses (sls : List StopLoss) :
    collectStopLosses (renderStopLosses sls) =
      sls.map (fun sl => (some sl.offset_percent, some sl.volume_percent)) := by
  induction sls with
  | nil => rfl
  | cons sl rest ih =>
    simp [collectStopLosses, renderStopLosses, createStopLossRow, parseFloatVal]

/-- A `zipWith` that ignores its left input is a `map` over the right one,
when the lengths agree. -/
theorem zipWith_ignore_left {α β γ : Type} (g : β → γ) :
    ∀ (as : List α) (bs : List β), as.length = bs.length →
      List.zipWith (fun _ b => g b) as bs = bs.map g := by
  intro as
  induction as with
  | nil => intro bs h; cases bs <;> simp at h ⊢
  | cons a as ih =>
    intro bs h
    cases bs with
    | nil => simp at h
    | cons b bs' =>
      simp at h
      simp [ih bs' h]

/-- The `.add-stop` click never grows the container past ten rows. -/
theorem addStopClick_length_le (rows : List SlRowDom) (h : rows.length ≤ 10) :
    ((addStopClick rows).1).length ≤ 10 := by
  unfold addStopClick
  split <;> simp <;> omega

/-- Removing a row never grows the container. -/
theorem eraseIdx_length_le {α : Type} (l : List α) (i : Nat) :
    (l.eraseIdx i).length ≤ l.length := by
  induction l generalizing i with
  | nil => simp [List.eraseIdx]
  | cons a t ih =>
    cases i with
    | zero => simp [List.eraseIdx]
    | succ j =>
      simp only [List.eraseIdx, List.length_cons]
      exact Nat.succ_le_succ (ih j)

/- ### C4: a 204 response resolves to null -/

/-- C4: for every API Client call, an HTTP response with status 204 makes
the call resolve to null (`RequestOutcome.ok none`); in particular such a
call never throws. -/
theorem request_204_resolves_null (resp : HttpResponse) (h : resp.status = 204) :
    API.request resp = RequestOutcome.ok none := by
  simp [API.request, responseOk, h]

/-- Witness for C4 at a concrete 204 response. -/
theorem request_204_resolves_null_witness :
    API.request ⟨204, "No Content", none⟩ = RequestOutcome.ok none :=
  request_204_resolves_null ⟨204, "No Content", none⟩ rfl

/- ### C2: error-message priority of the API client -/

/-- C2 (amended): for every non-2xx response, the call rejects with a
message chosen by JS truthiness: the body's `detail` field when present and
non-empty, otherwise the HTTP status text when non-empty, otherwise the
fallback "Ошибка запроса". (A present but empty `detail` falls through to
the status text, which is why the claim's "when present" needed amending.) -/
theorem request_error_message_priority (resp : HttpResponse)
    (h : responseOk resp.status = false) :
    (∀ d, (resp.jsonBody.getD ⟨none⟩).detail = some d → d ≠ "" →
        API.request resp = RequestOutcome.error d) ∧
    ((resp.jsonBody.getD ⟨none⟩).detail = none ∨
        (resp.jsonBody.getD ⟨none⟩).detail = some "" →
      resp.statusText ≠ "" → API.request resp = RequestOutcome.error resp.statusText) ∧
    ((resp.jsonBody.getD ⟨none⟩).detail = none ∨
        (resp.jsonBody.getD ⟨none⟩).detail = some "" →
      resp.statusText = "" → API.request resp = RequestOutcome.error "Ошибка запроса") := by
  refine ⟨?_, ?_, ?_⟩
  · intro d hd hne
    simp [API.request, h, hd, hne]
  · rintro (hd | hd) hst <;> simp [API.request, h, hd, hst]
  · rintro (hd | hd) hst <;> simp [API.request, h, hd, hst]

/-- Witness for C2 (amended) at a concrete 404 with body detail "X". -/
theorem request_error_message_priority_witness :
    API.request ⟨404, "Not Found", some ⟨some "X"⟩⟩ = RequestOutcome.error "X" :=
  (request_error_message_priority ⟨404, "Not Found", some ⟨some "X"⟩⟩ rfl).1
    "X" rfl (by decide)

/-- Counterexample to C2 as stated: the body `detail` field is present (the
empty string), yet the rejection message is the status text, not that
field's value. -/
theorem request_error_message_counterexample :
    API.request ⟨500, "Internal Server Error", some ⟨some ""⟩⟩
        = RequestOutcome.error "Internal Server Error" ∧
    RequestOutcome.error "Internal Server Error" ≠ RequestOutcome.error "" := by
  exact ⟨rfl, by decide⟩

/- ### C3: DCA validation throws before any network call -/

/-- C3: whenever the DCA checkbox is checked and the trimmed DCA offset or
quantity value is blank, `collectConfig` throws its validation error
synchronously, and the submit handler therefore never invokes
`API.updateConfig` (no payload goes out) whatever the server would have
replied; the card is also left untouched. -/
theorem dca_validation_blocks_submit (card : CardDom) (reply : ServerReply)
    (hEnabled : card.dcaEnabledChecked = true)
    (hBlank : card.dcaOffsetVal.trim.isTruthy = false ∨
      card.dcaQuantityVal.trim.isTruthy = false) :
    collectConfig card = Except.error dcaValidationMessage ∧
      (submitHandler card reply).payload = none ∧
      (submitHandler card reply).card = card := by
  have hc : collectConfig card = Except.error dcaValidationMessage := by
    unfold collectConfig
    rcases hBlank with h | h <;> simp [hEnabled, h]
  refine ⟨hc, ?_, ?_⟩ <;> simp [submitHandler, hc]

/-- Witness for C3: DCA enabled with both fields blank; the submission is
blocked with no outgoing payload. -/
theorem dca_validation_blocks_submit_witness :
    collectConfig c3Card = Except.error dcaValidationMessage ∧
      (submitHandler c3Card (ServerReply.rejected "boom")).payload = none ∧
      (submitHandler c3Card (ServerReply.rejected "boom")).card = c3Card :=
  dca_validation_blocks_submit c3Card (ServerReply.rejected "boom") (by decide)
    (Or.inl (by decide))

/- ### C5: errors leave the card's DOM in its pre-submit state -/

/-- C5: for every submission in which `collectConfig` throws or the
`updateConfig` request rejects, the submit handler alerts the error message,
never runs `renderInstrument`, and leaves the card DOM exactly as it was
before the submit. -/
theorem submit_error_atomicity (card : CardDom) (reply : ServerReply) :
    (∀ e, collectConfig card = Except.error e →
        submitHandler card reply = ⟨card, e, none, false⟩) ∧
    (∀ m cfg, collectConfig card = Except.ok cfg →
        reply = ServerReply.rejected m →
        submitHandler card reply = ⟨card, m, some cfg, false⟩) := by
  constructor
  · intro e he
    simp [submitHandler, he]
  · intro m cfg hc hr
    simp [submitHandler, hc, hr]

/-- Witness for C5 at a concrete rejected submission: the card comes back
unchanged, unrendered, with the rejection message alerted. -/
theorem submit_error_atomicity_witness :
    submitHandler baseCard (ServerReply.rejected "fail")
      = ⟨baseCard, "fail", some
          { symbol := "BTCUSDT"
            entry_amount := none
            take_profits := []
            stop_losses := []
            tp1_dca := ⟨false, none, none⟩ }, false⟩ :=
  (submit_error_atomicity baseCard (ServerReply.rejected "fail")).2 "fail"
    { symbol := "BTCUSDT"
      entry_amount := none
      take_profits := []
      stop_losses := []
      tp1_dca := ⟨false, none, none⟩ } (by rfl) rfl

/- ### C6: the add-stop cap -/

/-- C6: each `.add-stop` click appends exactly one fresh empty row when the
container holds fewer than ten rows and leaves it unchanged (alerting)
otherwise; consequently iterating the click from any container within the
cap — in particular the empty one — never pushes the row count past ten. -/
theorem add_stop_capped (rows : List SlRowDom) :
    (rows.length < 10 →
      addStopClick rows
        = (rows ++ [createStopLossRow (FieldVal.str "") (FieldVal.str "")], false)) ∧
    (10 ≤ rows.length → addStopClick rows = (rows, true)) ∧
    (∀ n, rows.length ≤ 10 → (addStopTimes n rows).length ≤ 10) := by
  refine ⟨?_, ?_, ?_⟩
  · intro h
    simp [addStopClick, Nat.not_le.mpr h]
  · intro h
    simp [addStopClick, h]
  · intro n
    induction n generalizing rows with
    | zero => intro h; exact h
    | succ m ih =>
      intro h
      exact ih ((addStopClick rows).1) (addStopClick_length_le rows h)

/-- Witness for C6: twelve clicks from an empty container leave at most ten
rows. -/
theorem add_stop_capped_witness : (addStopTimes 12 []).length ≤ 10 :=
  (add_stop_capped []).2.2 12 (by decide)

/- ### C1: length of the submitted stop-loss list -/

/-- C1 (amended): starting from a container within the ten-row cap, after
any sequence of add/remove/render interactions in which every render's
`stop_losses` payload has at most ten entries, any config the submit posts
has a `stop_losses` list of length at most ten. (Unrestricted renders can
exceed the cap, which is why the claim needed amending.) -/
theorem submitted_stop_losses_capped (acts : List SlAction) (rows : List SlRowDom)
    (hstart : rows.length ≤ 10)
    (hrender : ∀ sls, SlAction.render sls ∈ acts → sls.length ≤ 10) :
    ∀ card cfg, card.slRows = applySlActions acts rows →
      collectConfig card = Except.ok cfg → cfg.stop_losses.length ≤ 10 := by
  have hlen : (applySlActions acts rows).length ≤ 10 := by
    induction acts generalizing rows with
    | nil => exact hstart
    | cons a rest ih =>
      have hstep : (applySlAction rows a).length ≤ 10 := by
        cases a with
        | add => exact addStopClick_length_le rows hstart
        | remove i => exact le_trans (eraseIdx_length_le rows i) hstart
        | render sls =>
          have : sls.length ≤ 10 := hrender sls (by simp)
          simpa [applySlAction, renderStopLosses] using this
      have hrest : ∀ sls, SlAction.render sls ∈ rest → sls.length ≤ 10 := by
        intro sls hmem
        exact hrender sls (List.mem_cons_of_mem a hmem)
      exact ih (applySlAction rows a) hstep hrest
  intro card cfg hcard hok
  have hsl : cfg.stop_losses = collectStopLosses card.slRows := by
    simp only [collectConfig] at hok
    split at hok
    · exact absurd hok (by simp)
    · cases hok
      rfl
  rw [hsl, hcard]
  simpa [collectStopLosses] using hlen

/-- Witness for C1 (amended): two adds and a ten-entry render still submit
at most ten stop losses. -/
theorem submitted_stop_losses_capped_witness :
    ({ symbol := "BTCUSDT", entry_amount := none, take_profits := [],
        stop_losses := List.replicate 10 ((some 1 : Option Q), (some 2 : Option Q)),
        tp1_dca := ⟨false, none, none⟩ } : CollectedConfig).stop_losses.length ≤ 10 :=
  submitted_stop_losses_capped
    [SlAction.add, SlAction.add, SlAction.render (List.replicate 10 ⟨1, 2⟩)] []
    (by decide)
    (by
      intro sls h
      simp only [List.mem_cons, List.not_mem_nil, or_false] at h
      rcases h with h | h | h
      · exact absurd h (by simp)
      · exact absurd h (by simp)
      · cases h
        decide)
    { baseCard with
      slRows := applySlActions
        [SlAction.add, SlAction.add, SlAction.render (List.replicate 10 ⟨1, 2⟩)] [] }
    { symbol := "BTCUSDT", entry_amount := none, take_profits := [],
      stop_losses := List.replicate 10 ((some 1 : Option Q), (some 2 : Option Q)),
      tp1_dca := ⟨false, none, none⟩ }
    rfl
    (by rfl)

/-- Counterexample to C1 as stated: rendering a server payload with eleven
stop losses (a legal render interaction) then submitting posts a config with
eleven stop losses. -/
theorem submitted_stop_losses_counterexample :
    payloadSlCount c1Card (ServerReply.rejected "err") = some 11 ∧ ¬ (11 ≤ 10) := by
  exact ⟨by rfl, by decide⟩

/- ### C8: logs rendered newest-first without mutating the input -/

/-- C8: a completed render of a card that has a log list writes one `<li>`
per log entry, in reverse order of the `logs` sequence (newest first), and
the `slice()` copy keeps the input `logs` array itself unchanged. -/
theorem render_logs_reversed (card : CardDom) (S : InstrumentState)
    (card2 : CardDom) (items : List LogItemView)
    (hr : renderInstrument card S = RenderResult.ok card2)
    (hl : card.logItems = some items) :
    card2.logItems = some (S.logs.reverse.map logItemView) ∧
      (S.logs.reverse.map logItemView).length = S.logs.length ∧
      (logsSliceReverse S.logs).1 = S.logs := by
  obtain ⟨hcard2, -⟩ := renderInstrument_ok_elim card S card2 hr
  refine ⟨?_, by simp, rfl⟩
  rw [hcard2]
  simp [renderedCard, hl, logsSliceReverse]

/-- Witness for C8: rendering `baseCard` with the two-entry `sampleState`
shows the newest entry first. -/
theorem render_logs_reversed_witness :
    c8Rendered.logItems
        = some (sampleState.logs.reverse.map logItemView) ∧
      (sampleState.logs.reverse.map logItemView).length = sampleState.logs.length ∧
      (logsSliceReverse sampleState.logs).1 = sampleState.logs :=
  render_logs_reversed baseCard sampleState c8Rendered [] (by rfl) (by rfl)

/- ### C10: renders with fewer entries than rows throw mid-way -/

/-- C10: when the payload's `take_profits` list is shorter than the card's
row count, `renderInstrument` throws after overwriting the entry amount and
the first `take_profits.length` rows, leaving everything else untouched
(`thrownPartially`); and conversely entries beyond the card's row count are
silently ignored — rendering with the entries truncated to the row count
gives the identical result. -/
theorem render_not_total_not_atomic (card : CardDom) (S : InstrumentState) :
    (S.config.take_profits.length < card.tpRows.length → thrownPartially card S) ∧
    renderInstrument card S = renderInstrument card (truncTakeProfits card S) := by
  constructor
  · intro h
    exact ⟨_, renderInstrument_eq_thrown card S h, by simp⟩
  · simp [renderInstrument, truncTakeProfits, writeTpRows_take]

/-- Witness for C10: a one-row card rendered with a zero-entry payload
throws, with only the entry amount (and no row) overwritten. -/
theorem render_not_total_not_atomic_witness : thrownPartially oneTpRowCard emptyTpState :=
  (render_not_total_not_atomic oneTpRowCard emptyTpState).1 (by decide)

/- ### C7: render-then-collect round-trips the editable subset -/

/-- Trimming keeps a blank field blank and a number field truthy. -/
theorem trim_empty_not_truthy : (FieldVal.str "").trim.isTruthy = false := by decide

/-- Trimming the empty string gives the empty string. -/
theorem jsTrim_empty : jsTrim "" = "" := by decide

/-- `parseFloat` recovers a number field exactly. -/
theorem parseFloatVal_num (q : Q) : parseFloatVal (FieldVal.num q) = some q := rfl

/-- Pairwise-written take-profit rows collect back to the payload's
offset/volume pairs when the row and entry counts agree. -/
theorem tpRows_pairs_eq (rows : List TpRowDom) (tps : List TakeProfit)
    (h : rows.length = tps.length) :
    (List.zipWith writeTpRow rows tps).map
        (fun row => (parseFloatVal row.offsetVal, parseFloatVal row.volumeVal))
      = tps.map (fun tp => (some tp.offset_percent, some tp.volume_percent)) := by
  induction rows generalizing tps with
  | nil => cases tps with
    | nil => rfl
    | cons tp tps2 => simp at h
  | cons r rs ih =>
    cases tps with
    | nil => simp at h
    | cons tp tps2 =>
      simp only [List.length_cons, Nat.succ.injEq] at h
      simp [writeTpRow, parseFloatVal_num, ih tps2 h]

/-- C7 (amended): for every card whose take-profit row count equals the
payload's `take_profits` length, and every payload whose `tp1_dca` is
well-formed (enabled only with both fields present), rendering then
collecting recovers the editable-config subset exactly: the entry amount,
every take-profit offset/volume pair, every stop-loss pair, and the DCA
block. (Without the row-count hypothesis the round-trip fails: extra payload
entries are silently dropped and missing ones make the render throw — see
the counterexample.) -/
theorem render_collect_roundtrip (card : CardDom) (S : InstrumentState)
    (hlen : card.tpRows.length = S.config.take_profits.length)
    (hdca : dcaWellFormed S.config.tp1_dca) :
    roundTripEditable card S =
      some (some S.config.entry_amount, configTpPairs S.config, configSlPairs S.config,
        ⟨S.config.tp1_dca.enabled, S.config.tp1_dca.offset_percent,
          S.config.tp1_dca.quantity⟩) := by
  have hok := renderInstrument_eq_ok card S (le_of_eq hlen)
  have hdropnil : card.tpRows.drop S.config.take_profits.length = [] := by
    rw [← hlen]
    exact List.drop_length _
  have htp := tpRows_pairs_eq card.tpRows S.config.take_profits hlen
  simp only [roundTripEditable, hok]
  cases hen : S.config.tp1_dca.enabled with
  | false =>
    cases hoff : S.config.tp1_dca.offset_percent with
    | none =>
      cases hqty : S.config.tp1_dca.quantity with
      | none =>
        simp [collectConfig, renderedCard, hen, hoff, hqty, hdropnil,
          editableTpPairs, configTpPairs, configSlPairs, collect_render_stopLosses,
          parseFloatVal_num, jsTrim_empty, FieldVal.trim, FieldVal.isTruthy,
          List.map_map, Function.comp]
        exact htp
      | some qq =>
        simp [collectConfig, renderedCard, hen, hoff, hqty, hdropnil,
          editableTpPairs, configTpPairs, configSlPairs, collect_render_stopLosses,
          parseFloatVal_num, jsTrim_empty, FieldVal.trim, FieldVal.isTruthy,
          List.map_map, Function.comp]
        exact htp
    | some qo =>
      cases hqty : S.config.tp1_dca.quantity with
      | none =>
        simp [collectConfig, renderedCard, hen, hoff, hqty, hdropnil,
          editableTpPairs, configTpPairs, configSlPairs, collect_render_stopLosses,
          parseFloatVal_num, jsTrim_empty, FieldVal.trim, FieldVal.isTruthy,
          List.map_map, Function.comp]
        exact htp
      | some qq =>
        simp [collectConfig, renderedCard, hen, hoff, hqty, hdropnil,
          editableTpPairs, configTpPairs, configSlPairs, collect_render_stopLosses,
          parseFloatVal_num, jsTrim_empty, FieldVal.trim, FieldVal.isTruthy,
          List.map_map, Function.comp]
        exact htp
  | true =>
    obtain ⟨hoffS, hqtyS⟩ := hdca hen
    cases hoff : S.config.tp1_dca.offset_percent with
    | none => rw [hoff] at hoffS; simp at hoffS
    | some qo =>
      cases hqty : S.config.tp1_dca.quantity with
      | none => rw [hqty] at hqtyS; simp at hqtyS
      | some qq =>
        simp [collectConfig, renderedCard, hen, hoff, hqty, hdropnil,
          editableTpPairs, configTpPairs, configSlPairs, collect_render_stopLosses,
          parseFloatVal_num, jsTrim_empty, FieldVal.trim, FieldVal.isTruthy,
          List.map_map, Function.comp]
        exact htp

/-- Witness for C7 (amended) at a one-row card and the one-entry
`sampleState`. -/
theorem render_collect_roundtrip_witness :
    roundTripEditable oneTpRowCard sampleState =
      some (some sampleState.config.entry_amount, configTpPairs sampleState.config,
        configSlPairs sampleState.config,
        ⟨sampleState.config.tp1_dca.enabled, sampleState.config.tp1_dca.offset_percent,
          sampleState.config.tp1_dca.quantity⟩) :=
  render_collect_roundtrip oneTpRowCard sampleState (by decide)
    (by intro h; exact absurd h (by decide))

/-- Counterexample to C7 as stated: `baseCard` has no take-profit rows, so
rendering it with the one-take-profit `sampleState` succeeds but the
collected take-profit pairs are empty — the editable subset does not
round-trip for every card. -/
theorem render_collect_roundtrip_counterexample :
    roundTripEditable baseCard sampleState
        = some (some 100, [], [(some 2, some 25)], ⟨false, none, none⟩) ∧
      configTpPairs sampleState.config = [(some 1, some 50)] ∧
      ([] : List (Option Q × Option Q)) ≠ [(some 1, some 50)] := by
  refine ⟨by rfl, by rfl, by decide⟩

/- ### C9: fan-out of a ManagerState over the rendered cards -/

/-- When `findCardIdx` finds nothing, no card carries the symbol. -/
theorem findCardIdx_none_spec (cards : List CardDom) (sym : String)
    (h : findCardIdx cards sym = none) : ∀ c ∈ cards, c.symbol ≠ sym := by
  induction cards with
  | nil => intro c hc; simp at hc
  | cons a t ih =>
    intro c hc
    simp only [findCardIdx] at h
    by_cases ha : a.symbol = sym
    · simp [ha] at h
    · simp only [ha, if_false, Option.map_eq_none'] at h
      rcases List.mem_cons.mp hc with rfl | hct
      · exact ha
      · exact ih h c hct

/-- When `findCardIdx` finds index `i`, the card at `i` carries the symbol. -/
theorem findCardIdx_some_spec (sym : String) :
    ∀ (cards : List CardDom) (i : Nat), findCardIdx cards sym = some i →
      ∃ c, cards[i]? = some c ∧ c.symbol = sym := by
  intro cards
  induction cards with
  | nil => intro i h; simp [findCardIdx] at h
  | cons a t ih =>
    intro i h
    simp only [findCardIdx] at h
    by_cases ha : a.symbol = sym
    · simp only [ha, if_true] at h
      cases h
      exact ⟨a, by simp, ha⟩
    · simp only [ha, if_false, Option.map_eq_some'] at h
      obtain ⟨j, hj, hi⟩ := h
      obtain ⟨c, hc, hcs⟩ := ih j hj
      subst hi
      exact ⟨c, by simpa [List.getElem?_cons_succ] using hc, hcs⟩

/-- Unfolding one step of the spec-side fan-out. -/
theorem applyMatching_cons (inst : InstrumentState) (rest : List InstrumentState)
    (c : CardDom) :
    applyMatching (inst :: rest) c =
      applyMatching rest
        (if c.symbol = inst.symbol then renderResultCard (renderInstrument c inst)
          else c) := rfl

/-- A card matched by no instrument is left alone by the fan-out. -/
theorem applyMatching_skip (insts : List InstrumentState) (c : CardDom)
    (h : ∀ inst ∈ insts, inst.symbol ≠ c.symbol) : applyMatching insts c = c := by
  induction insts with
  | nil => rfl
  | cons inst rest ih =>
    rw [applyMatching_cons, if_neg (fun hc => (h inst (by simp)) hc.symm)]
    exact ih (fun i hi => h i (List.mem_cons_of_mem _ hi))

/-- Setting an index to the value it already holds changes nothing. -/
theorem set_getElem?_eq_self {α : Type} (l : List α) (i : Nat) (a : α)
    (h : l[i]? = some a) : l.set i a = l := by
  induction l generalizing i with
  | nil => simp at h
  | cons x t ih =>
    cases i with
    | zero =>
      simp only [List.getElem?_cons_zero, Option.some.injEq] at h
      simp [List.set, h]
    | succ j =>
      simp only [List.getElem?_cons_succ] at h
      simp [List.set, ih j h]

/-- Two distinct positions of a duplicate-free list hold distinct values. -/
theorem nodup_getElem?_ne {α : Type} :
    ∀ (l : List α), l.Nodup → ∀ (i j : Nat), i ≠ j → ∀ (a b : α),
      l[i]? = some a → l[j]? = some b → a ≠ b := by
  intro l
  induction l with
  | nil => intro _ i j _ a b ha; simp at ha
  | cons x t ih =>
    intro h i j hij a b ha hb
    rw [List.nodup_cons] at h
    cases i with
    | zero =>
      simp only [List.getElem?_cons_zero, Option.some.injEq] at ha
      cases j with
      | zero => exact absurd rfl hij
      | succ j2 =>
        rw [List.getElem?_cons_succ] at hb
        subst ha
        intro hab
        exact h.1 (hab ▸ List.getElem?_mem hb)
    | succ i2 =>
      rw [List.getElem?_cons_succ] at ha
      cases j with
      | zero =>
        simp only [List.getElem?_cons_zero, Option.some.injEq] at hb
        subst hb
        intro hab
        exact h.1 (hab ▸ List.getElem?_mem ha)
      | succ j2 =>
        rw [List.getElem?_cons_succ] at hb
        exact ih h.2 i2 j2 (fun he => hij (by rw [he])) a b ha hb

/-- The `renderedCard`'s symbol is the card's. -/
theorem renderedCard_symbol (card : CardDom) (data : InstrumentState) :
    (renderedCard card data).symbol = card.symbol := rfl

/-- The `renderedCard` keeps the take-profit row count. -/
theorem renderedCard_tpRows_length (card : CardDom) (data : InstrumentState) :
    (renderedCard card data).tpRows.length = card.tpRows.length := by
  simp [renderedCard]
  omega

/-- The `updateAll` loop, under distinct card symbols and payloads deep
enough for every matched card: no render throws, and the final page is the
original one with the spec-side fan-out `applyMatching` applied pointwise. -/
theorem updateAllGo_spec (insts : List InstrumentState) :
    ∀ (cards : List CardDom),
      (cards.map CardDom.symbol).Nodup →
      (∀ inst ∈ insts, ∀ c ∈ cards, c.symbol = inst.symbol →
        c.tpRows.length ≤ inst.config.take_profits.length) →
      updateAllGo insts cards = (cards.map (applyMatching insts), false) := by
  induction insts with
  | nil =>
    intro cards _ _
    simp only [updateAllGo, Prod.mk.injEq]
    exact ⟨((List.map_congr_left (fun c _ => rfl)).trans (List.map_id cards)).symm, trivial⟩
  | cons inst rest ih =>
    intro cards hnd hok
    cases hfind : findCardIdx cards inst.symbol with
    | none =>
      have hnone := findCardIdx_none_spec cards inst.symbol hfind
      have hmap : cards.map (applyMatching (inst :: rest))
          = cards.map (applyMatching rest) := by
        apply List.map_congr_left
        intro c hc
        rw [applyMatching_cons, if_neg (hnone c hc)]
      simp only [updateAllGo, hfind]
      rw [hmap]
      exact ih cards hnd
        (fun i2 h2 c hc hs => hok i2 (List.mem_cons_of_mem _ h2) c hc hs)
    | some i =>
      obtain ⟨c, hget, hsym⟩ := findCardIdx_some_spec inst.symbol cards i hfind
      have hilt : i < cards.length := by
        by_contra hge
        rw [List.getElem?_eq_none (Nat.le_of_not_lt hge)] at hget
        exact absurd hget (by simp)
      have hcmem : c ∈ cards := List.getElem?_mem hget
      have hle : c.tpRows.length ≤ inst.config.take_profits.length :=
        hok inst (by simp) c hcmem hsym
      have hrok := renderInstrument_eq_ok c inst hle
      have hc2sym : (renderedCard c inst).symbol = c.symbol := renderedCard_symbol c inst
      have hmapsym : ((cards.set i (renderedCard c inst)).map CardDom.symbol)
          = cards.map CardDom.symbol := by
        rw [List.map_set, hc2sym]
        exact set_getElem?_eq_self _ i _ (by rw [List.getElem?_map, hget]; rfl)
      have hok2 : ∀ inst2 ∈ rest, ∀ c3 ∈ cards.set i (renderedCard c inst),
          c3.symbol = inst2.symbol →
          c3.tpRows.length ≤ inst2.config.take_profits.length := by
        intro inst2 h2 c3 hc3 hs
        rcases List.mem_or_eq_of_mem_set hc3 with hmem | rfl
        · exact hok inst2 (List.mem_cons_of_mem _ h2) c3 hmem hs
        · rw [renderedCard_tpRows_length]
          exact hok inst2 (List.mem_cons_of_mem _ h2) c hcmem (hc2sym ▸ hs)
      have hstep := ih (cards.set i (renderedCard c inst)) (hmapsym ▸ hnd) hok2
      simp only [updateAllGo, hfind, hget, hrok]
      rw [hstep]
      refine Prod.ext ?_ rfl
      apply List.ext_getElem?
      intro j
      rw [List.getElem?_map, List.getElem?_map]
      by_cases hj : j = i
      · subst hj
        rw [List.getElem?_set_self hilt, hget]
        simp only [Option.map_some']
        rw [applyMatching_cons, if_pos hsym, hrok]
        rfl
      · rw [List.getElem?_set_ne (fun he => hj he.symm)]
        cases hgj : cards[j]? with
        | none => rfl
        | some cj =>
          simp only [Option.map_some']
          have hne : cj.symbol ≠ c.symbol :=
            nodup_getElem?_ne _ hnd j i hj cj.symbol c.symbol
              (by rw [List.getElem?_map, hgj]; rfl)
              (by rw [List.getElem?_map, hget]; rfl)
          rw [applyMatching_cons, if_neg (fun he => hne (he.trans hsym.symm))]

/-- C9 (amended): for a page of rendered cards with pairwise-distinct
symbols, and a ManagerState whose instruments are deep enough for every
matched card's rows, `updateAll` re-renders exactly the matching cards —
each card becomes the fan-out `applyMatching` of the instrument list over it
(one render per instrument carrying its symbol, in order) — and every card
whose symbol matches no instrument is left completely untouched. (Duplicate
card symbols break the claim as stated: `document.querySelector` re-renders
only the first match — see the counterexample.) -/
theorem updateAll_fanout (insts : List InstrumentState) (cards : List CardDom)
    (hnd : (cards.map CardDom.symbol).Nodup)
    (hok : ∀ inst ∈ insts, ∀ c ∈ cards, c.symbol = inst.symbol →
      c.tpRows.length ≤ inst.config.take_profits.length) :
    updateAll ⟨insts⟩ cards = (cards.map (applyMatching insts), false) ∧
      ∀ c ∈ cards, (∀ inst ∈ insts, inst.symbol ≠ c.symbol) →
        applyMatching insts c = c :=
  ⟨updateAllGo_spec insts cards hnd hok,
    fun c _ h => applyMatching_skip insts c h⟩

/-- Witness for C9 (amended): one instrument fanned out over two cards with
distinct symbols. -/
theorem updateAll_fanout_witness :
    updateAll ⟨[sampleState]⟩ [baseCard, otherCard]
      = ([baseCard, otherCard].map (applyMatching [sampleState]), false) :=
  (updateAll_fanout [sampleState] [baseCard, otherCard] (by decide) (by decide)).1

/-- Counterexample to C9 as stated: with two rendered cards carrying the
same symbol, the second matches an instrument of the response yet is left
untouched (`querySelector` only finds the first), even though re-rendering
it would have changed it. -/
theorem updateAll_fanout_counterexample :
    ((updateAll ⟨[sampleState]⟩ [baseCard, baseCard]).1)[1]? = some baseCard ∧
      baseCard.symbol = sampleState.symbol ∧
      renderResultCard (renderInstrument baseCard sampleState) ≠ baseCard := by
  refine ⟨by rfl, rfl, by decide⟩
